import Mathlib

/-!
Shallow embedding of the huedesk wallpaper generator
(image_generator.py, huedesk_cli.py).

Conventions of the embedding:
* the Python arbitrary-precision int is `ℤ` (channel values) or `ℕ`
  (dimensions, pixel coordinates);
* Python float arithmetic inside the gradient formulas is modelled as exact
  rational arithmetic (`ℚ`); `int(...)` applied to a float is `pytrunc`
  (truncation toward zero);
* Python division raises ZeroDivisionError on a zero denominator, so
  division is the fallible `pydiv` and the generators return
  `Except GenErr _`;
* a PIL image is a total function from coordinates to pixels; `Image.new`
  produces the all-black image and `putpixel` is a pointwise update.  The
  raster size of the image actually produced is carried separately in
  `GenOutput`.
-/

namespace Huedesk

/-- An RGB pixel / color triple.  Channels are Python ints (`ℤ`). -/
structure RGB where
  r : ℤ
  g : ℤ
  b : ℤ
deriving DecidableEq, Repr

/-- Python `int(x)` on a float: truncation toward zero. -/
def pytrunc (q : ℚ) : ℤ :=
  if 0 ≤ q then ⌊q⌋ else -⌊-q⌋

/-- One channel of `int(a + t * (b - a))`, the interpolation step shared by
all three gradient routines in image_generator.py. -/
def interp (a b : ℤ) (t : ℚ) : ℤ :=
  pytrunc ((a : ℚ) + t * ((b : ℚ) - (a : ℚ)))

/-- Errors of the raster stage: ZeroDivisionError from Python division, and
ImageGeneratorError for an invalid processing mode. -/
inductive GenErr where
  | zeroDivision : GenErr
  | invalidMode : GenErr
deriving DecidableEq, Repr

/-- Python float division: raises ZeroDivisionError when the denominator
is zero. -/
def pydiv (a b : ℚ) : Except GenErr ℚ :=
  if b = 0 then .error .zeroDivision else .ok (a / b)

/-- A PIL image, as a total map from (x, y) coordinates to pixels. -/
def Img : Type := ℕ × ℕ → RGB

def blackRGB : RGB := ⟨0, 0, 0⟩

/-- Model of `Image.new` with mode RGB: every pixel black. -/
def imageNew : Img := fun _ => blackRGB

/-- Model of `image.putpixel((x, y), c)`. -/
def putpixel (im : Img) (p : ℕ × ℕ) (c : RGB) : Img :=
  fun q => if q = p then c else im q

/-- One inner loop iteration row of the gradient routines, with a fallible
pixel computation: `for x in range(width): image.putpixel((x, y), pix x y)`. -/
def rowRender (pix : ℕ → ℕ → Except GenErr RGB) (w y : ℕ) (im : Img) :
    Except GenErr Img :=
  (List.range w).foldlM (fun im x => do pure (putpixel im (x, y) (← pix x y))) im

/-- The nested pixel loop shared by the gradient routines:
`for y in range(height): for x in range(width): image.putpixel(...)`,
starting from the fresh black image, with fallible pixel computation. -/
def render (pix : ℕ → ℕ → Except GenErr RGB) (w h : ℕ) : Except GenErr Img :=
  (List.range h).foldlM (fun im y => rowRender pix w y im) imageNew

/-- Infallible version of `rowRender`, used to describe what the loop
produces when no division fails. -/
def rowFold (pix : ℕ → ℕ → RGB) (w y : ℕ) (im : Img) : Img :=
  (List.range w).foldl (fun im x => putpixel im (x, y) (pix x y)) im

/-- Infallible version of `render`. -/
def renderPure (pix : ℕ → ℕ → RGB) (w h : ℕ) : Img :=
  (List.range h).foldl (fun im y => rowFold pix w y im) imageNew

theorem pytrunc_intCast (a : ℤ) : pytrunc (a : ℚ) = a := by
  unfold pytrunc
  by_cases h : (0 : ℚ) ≤ (a : ℚ)
  · rw [if_pos h, Int.floor_intCast]
  · rw [if_neg h, ← Int.cast_neg, Int.floor_intCast, neg_neg]

theorem pytrunc_of_nonneg {q : ℚ} (h : 0 ≤ q) : pytrunc q = ⌊q⌋ := by
  unfold pytrunc; rw [if_pos h]

theorem pytrunc_bounds {q : ℚ} (h0 : 0 ≤ q) (h1 : q ≤ 255) :
    0 ≤ pytrunc q ∧ pytrunc q ≤ 255 := by
  rw [pytrunc_of_nonneg h0]
  constructor
  · exact Int.floor_nonneg.mpr h0
  · have hle : (⌊q⌋ : ℚ) ≤ 255 := (Int.floor_le q).trans h1
    exact_mod_cast hle

theorem interp_zero (a b : ℤ) : interp a b 0 = a := by
  unfold interp
  rw [zero_mul, add_zero, pytrunc_intCast]

theorem interp_one (a b : ℤ) : interp a b 1 = b := by
  unfold interp
  rw [one_mul, add_sub_cancel, pytrunc_intCast]

theorem interp_bounds {a b : ℤ} {t : ℚ}
    (ha0 : 0 ≤ a) (ha1 : a ≤ 255) (hb0 : 0 ≤ b) (hb1 : b ≤ 255)
    (ht0 : 0 ≤ t) (ht1 : t ≤ 1) :
    0 ≤ interp a b t ∧ interp a b t ≤ 255 := by
  unfold interp
  have hval : (a : ℚ) + t * ((b : ℚ) - (a : ℚ)) = (1 - t) * a + t * b := by ring
  have ha0q : (0 : ℚ) ≤ (a : ℚ) := by exact_mod_cast ha0
  have ha1q : (a : ℚ) ≤ 255 := by exact_mod_cast ha1
  have hb0q : (0 : ℚ) ≤ (b : ℚ) := by exact_mod_cast hb0
  have hb1q : (b : ℚ) ≤ 255 := by exact_mod_cast hb1
  have h0 : (0 : ℚ) ≤ (a : ℚ) + t * ((b : ℚ) - (a : ℚ)) := by
    rw [hval]
    have h1 := mul_nonneg (by linarith : (0:ℚ) ≤ 1 - t) ha0q
    have h2 := mul_nonneg ht0 hb0q
    linarith
  have h255 : (a : ℚ) + t * ((b : ℚ) - (a : ℚ)) ≤ 255 := by
    rw [hval]
    have h1 : (1 - t) * (a : ℚ) ≤ (1 - t) * 255 :=
      mul_le_mul_of_nonneg_left ha1q (by linarith)
    have h2 : t * (b : ℚ) ≤ t * 255 := mul_le_mul_of_nonneg_left hb1q ht0
    linarith
  exact pytrunc_bounds h0 h255

theorem foldlM_ok {α β : Type} (g : β → α → β) :
    ∀ (l : List α) (f : β → α → Except GenErr β) (b : β),
      (∀ a ∈ l, ∀ b', f b' a = .ok (g b' a)) →
      l.foldlM f b = .ok (l.foldl g b)
  | [], _, _, _ => rfl
  | a :: l, f, b, h => by
    have hstep := h a (List.mem_cons_self a l) b
    have hrest := foldlM_ok g l f (g b a)
      (fun a' ha' b' => h a' (List.mem_cons_of_mem a ha') b')
    show f b a >>= (fun b' => l.foldlM f b') = _
    rw [hstep]
    show l.foldlM f (g b a) = _
    exact hrest

theorem rowFold_lookup (pix : ℕ → ℕ → RGB) (y : ℕ) :
    ∀ (w : ℕ) (im : Img) (a b : ℕ),
      rowFold pix w y im (a, b) = if a < w ∧ b = y then pix a y else im (a, b)
  | 0, im, a, b => by
    unfold rowFold
    simp
  | w + 1, im, a, b => by
    unfold rowFold
    rw [List.range_succ, List.foldl_append]
    show (if ((a, b) : ℕ × ℕ) = (w, y) then pix w y
          else rowFold pix w y im (a, b)) = _
    rw [rowFold_lookup pix y w im a b]
    by_cases hb : b = y
    · subst hb
      by_cases ha : a = w
      · subst ha
        rw [if_pos rfl, if_pos ⟨Nat.lt_succ_self a, rfl⟩]
      · rw [if_neg (fun e => ha (congrArg Prod.fst e))]
        by_cases haw : a < w
        · rw [if_pos ⟨haw, rfl⟩, if_pos ⟨Nat.lt_succ_of_lt haw, rfl⟩]
        · rw [if_neg (fun hc => haw hc.1), if_neg (fun hc => haw (by omega))]
    · rw [if_neg (fun e => hb (congrArg Prod.snd e)),
        if_neg (fun hc => hb hc.2), if_neg (fun hc => hb hc.2)]

theorem renderPure_foldl_lookup (pix : ℕ → ℕ → RGB) (w : ℕ) :
    ∀ (h : ℕ) (im : Img) (a b : ℕ),
      ((List.range h).foldl (fun im y => rowFold pix w y im) im) (a, b) =
        if a < w ∧ b < h then pix a b else im (a, b)
  | 0, im, a, b => by simp
  | h + 1, im, a, b => by
    rw [List.range_succ, List.foldl_append]
    show rowFold pix w h
      ((List.range h).foldl (fun im y => rowFold pix w y im) im) (a, b) = _
    rw [rowFold_lookup, renderPure_foldl_lookup pix w h im a b]
    by_cases hb : b = h
    · subst hb
      by_cases ha : a < w
      · rw [if_pos ⟨ha, rfl⟩, if_pos ⟨ha, Nat.lt_succ_self b⟩]
      · rw [if_neg (fun hc => ha hc.1), if_neg (fun hc => ha hc.1),
          if_neg (fun hc => ha hc.1)]
    · rw [if_neg (fun hc => hb hc.2)]
      by_cases hbh : b < h
      · by_cases ha : a < w
        · rw [if_pos ⟨ha, hbh⟩, if_pos ⟨ha, Nat.lt_succ_of_lt hbh⟩]
        · rw [if_neg (fun hc => ha hc.1), if_neg (fun hc => ha hc.1)]
      · rw [if_neg (fun hc => hbh hc.2), if_neg (fun hc => hb (by omega))]

theorem renderPure_lookup (pix : ℕ → ℕ → RGB) {w h a b : ℕ}
    (ha : a < w) (hb : b < h) :
    renderPure pix w h (a, b) = pix a b := by
  unfold renderPure
  rw [renderPure_foldl_lookup, if_pos ⟨ha, hb⟩]

theorem render_ok (pix : ℕ → ℕ → Except GenErr RGB) (pixPure : ℕ → ℕ → RGB)
    (w h : ℕ) (hpix : ∀ x < w, ∀ y < h, pix x y = .ok (pixPure x y)) :
    render pix w h = .ok (renderPure pixPure w h) := by
  unfold render renderPure
  apply foldlM_ok (fun im y => rowFold pixPure w y im)
  intro y hy im
  have hy' : y < h := List.mem_range.mp hy
  unfold rowRender rowFold
  apply foldlM_ok (fun im x => putpixel im (x, y) (pixPure x y))
  intro x hx im'
  have hx' : x < w := List.mem_range.mp hx
  rw [hpix x hx' y hy']
  rfl

/-- Model of generate_2point_gradient: colors[0] is the top-left corner,
colors[1] the bottom-right; per pixel the factor (x + y)/(width + height - 2)
interpolates every channel.  List indexing is modelled totally with a black
default; every claim supplies a list of the length the dispatcher guarantees. -/
def generate_2point_gradient (width height : ℕ) (colors : List RGB) :
    Except GenErr Img :=
  let color_tl := colors.getD 0 blackRGB
  let color_br := colors.getD 1 blackRGB
  render
    (fun x y => do
      let distance_tl ← pydiv ((x : ℚ) + (y : ℚ)) ((width : ℚ) + (height : ℚ) - 2)
      pure (RGB.mk
        (interp color_tl.r color_br.r distance_tl)
        (interp color_tl.g color_br.g distance_tl)
        (interp color_tl.b color_br.b distance_tl)))
    width height

/-- Model of generate_3point_gradient: colors[0] top-left, colors[1]
top-right, colors[2] bottom-left.  The top edge is interpolated by
x/(width-1), the left edge by y/(height-1), and the two results are blended
by x/(width-1) again.  The division for the top edge is evaluated before the
one for the left edge, as in the source. -/
def generate_3point_gradient (width height : ℕ) (colors : List RGB) :
    Except GenErr Img :=
  let color_tl := colors.getD 0 blackRGB
  let color_tr := colors.getD 1 blackRGB
  let color_bl := colors.getD 2 blackRGB
  render
    (fun x y => do
      let tx ← pydiv (x : ℚ) ((width : ℚ) - 1)
      let ty ← pydiv (y : ℚ) ((height : ℚ) - 1)
      let r_top := interp color_tl.r color_tr.r tx
      let g_top := interp color_tl.g color_tr.g tx
      let b_top := interp color_tl.b color_tr.b tx
      let r_left := interp color_tl.r color_bl.r ty
      let g_left := interp color_tl.g color_bl.g ty
      let b_left := interp color_tl.b color_bl.b ty
      pure (RGB.mk
        (interp r_left r_top tx)
        (interp g_left g_top tx)
        (interp b_left b_top tx)))
    width height

/-- Model of generate_4point_gradient: colors[0] top-left, colors[1]
top-right, colors[2] bottom-left, colors[3] bottom-right; bilinear blend of
the top and bottom edges, every step truncated. -/
def generate_4point_gradient (width height : ℕ) (colors : List RGB) :
    Except GenErr Img :=
  let color_tl := colors.getD 0 blackRGB
  let color_tr := colors.getD 1 blackRGB
  let color_bl := colors.getD 2 blackRGB
  let color_br := colors.getD 3 blackRGB
  render
    (fun x y => do
      let dist_x ← pydiv (x : ℚ) ((width : ℚ) - 1)
      let dist_y ← pydiv (y : ℚ) ((height : ℚ) - 1)
      let r_top := interp color_tl.r color_tr.r dist_x
      let g_top := interp color_tl.g color_tr.g dist_x
      let b_top := interp color_tl.b color_tr.b dist_x
      let r_bottom := interp color_bl.r color_br.r dist_x
      let g_bottom := interp color_bl.g color_br.g dist_x
      let b_bottom := interp color_bl.b color_br.b dist_x
      pure (RGB.mk
        (interp r_top r_bottom dist_y)
        (interp g_top g_bottom dist_y)
        (interp b_top b_bottom dist_y)))
    width height

/-- Loop body of generate_2point_gradient with the division carried out
(denominator known nonzero). -/
def pixel2 (ctl cbr : RGB) (width height x y : ℕ) : RGB :=
  let t : ℚ := ((x : ℚ) + (y : ℚ)) / ((width : ℚ) + (height : ℚ) - 2)
  RGB.mk (interp ctl.r cbr.r t) (interp ctl.g cbr.g t) (interp ctl.b cbr.b t)

/-- Loop body of generate_3point_gradient with the divisions carried out. -/
def pixel3 (ctl ctr cbl : RGB) (width height x y : ℕ) : RGB :=
  let tx : ℚ := (x : ℚ) / ((width : ℚ) - 1)
  let ty : ℚ := (y : ℚ) / ((height : ℚ) - 1)
  RGB.mk
    (interp (interp ctl.r cbl.r ty) (interp ctl.r ctr.r tx) tx)
    (interp (interp ctl.g cbl.g ty) (interp ctl.g ctr.g tx) tx)
    (interp (interp ctl.b cbl.b ty) (interp ctl.b ctr.b tx) tx)

/-- Loop body of generate_4point_gradient with the divisions carried out. -/
def pixel4 (ctl ctr cbl cbr : RGB) (width height x y : ℕ) : RGB :=
  let tx : ℚ := (x : ℚ) / ((width : ℚ) - 1)
  let ty : ℚ := (y : ℚ) / ((height : ℚ) - 1)
  RGB.mk
    (interp (interp ctl.r ctr.r tx) (interp cbl.r cbr.r tx) ty)
    (interp (interp ctl.g ctr.g tx) (interp cbl.g cbr.g tx) ty)
    (interp (interp ctl.b ctr.b tx) (interp cbl.b cbr.b tx) ty)

theorem generate_2point_ok (width height : ℕ) (colors : List RGB)
    (hd : (width : ℚ) + (height : ℚ) - 2 ≠ 0) :
    generate_2point_gradient width height colors =
      .ok (renderPure
        (pixel2 (colors.getD 0 blackRGB) (colors.getD 1 blackRGB) width height)
        width height) := by
  apply render_ok
  intro x hx y hy
  show (pydiv ((x : ℚ) + (y : ℚ)) ((width : ℚ) + (height : ℚ) - 2)) >>= _ = _
  unfold pydiv
  rw [if_neg hd]
  rfl

theorem generate_3point_ok (width height : ℕ) (colors : List RGB)
    (hw : (width : ℚ) - 1 ≠ 0) (hh : (height : ℚ) - 1 ≠ 0) :
    generate_3point_gradient width height colors =
      .ok (renderPure
        (pixel3 (colors.getD 0 blackRGB) (colors.getD 1 blackRGB)
          (colors.getD 2 blackRGB) width height)
        width height) := by
  apply render_ok
  intro x hx y hy
  show (pydiv (x : ℚ) ((width : ℚ) - 1)) >>= _ = _
  unfold pydiv
  rw [if_neg hw, if_neg hh]
  rfl

theorem generate_4point_ok (width height : ℕ) (colors : List RGB)
    (hw : (width : ℚ) - 1 ≠ 0) (hh : (height : ℚ) - 1 ≠ 0) :
    generate_4point_gradient width height colors =
      .ok (renderPure
        (pixel4 (colors.getD 0 blackRGB) (colors.getD 1 blackRGB)
          (colors.getD 2 blackRGB) (colors.getD 3 blackRGB) width height)
        width height) := by
  apply render_ok
  intro x hx y hy
  show (pydiv (x : ℚ) ((width : ℚ) - 1)) >>= _ = _
  unfold pydiv
  rw [if_neg hw, if_neg hh]
  rfl

/-- Where the finished raster was sent: `image.save(output_path)` in
generate mode, `image.show()` in preview mode. -/
inductive Sink where
  | savedTo (path : String) : Sink
  | shown : Sink
deriving DecidableEq, Repr

/-- Result of a successful create_gradient_color_image call: the raster
actually produced, its true size, and where it went.  For a color count
outside 2..4 the raster is the default black image at the unscaled
requested size (Image.new at line 163 uses width, height). -/
structure GenOutput where
  width : ℕ
  height : ℕ
  image : Img
  sink : Sink

/-- Python `int(...)` of a nonnegative float, as a natural number. -/
def pytruncNat (q : ℚ) : ℕ :=
  (pytrunc q).toNat

/-- Lines 153 to 160 of image_generator.py: the output_width/output_height
selection.  In generate mode (and for any unknown mode string) the
requested size is kept; in preview mode a width above 1000 scales both
dimensions by ratio = 1000/width, truncating to integers. -/
def output_size (mode : String) (width height : ℕ) : ℕ × ℕ :=
  if mode = "generate" then (width, height)
  else if mode = "preview" then
    if width > 1000 then
      let ratio : ℚ := 1000 / (width : ℚ)
      (pytruncNat ((width : ℚ) * ratio), pytruncNat ((height : ℚ) * ratio))
    else (width, height)
  else (width, height)

/-- Model of create_gradient_color_image.  Dispatches on the number of
colors; a count outside 2..4 silently keeps the default black image and
still saves or shows it.  The gradient may raise ZeroDivisionError; an
unknown mode raises ImageGeneratorError only after the raster was built. -/
def create_gradient_color_image (width height : ℕ) (colors : List RGB)
    (output_path : String) (mode : String) : Except GenErr GenOutput := do
  let (output_width, output_height) := output_size mode width height
  let num_colors := colors.length
  let (image, rasterW, rasterH) ←
    if num_colors = 2 then do
      pure ((← generate_2point_gradient output_width output_height colors),
        output_width, output_height)
    else if num_colors = 3 then do
      pure ((← generate_3point_gradient output_width output_height colors),
        output_width, output_height)
    else if num_colors = 4 then do
      pure ((← generate_4point_gradient output_width output_height colors),
        output_width, output_height)
    else
      pure ((imageNew : Img), width, height)
  if mode = "generate" then
    pure ⟨rasterW, rasterH, image, .savedTo output_path⟩
  else if mode = "preview" then
    pure ⟨rasterW, rasterH, image, .shown⟩
  else
    throw .invalidMode

/-- Errors raised through ParserError in parse_color, one constructor per
distinct message in the source. -/
inductive PErr where
  | invalidColorCount
  | invalidRGBRange
  | invalidRGBFormat
  | invalidHexFormat
  | invalidColorFormat
deriving DecidableEq, Repr

/-- Python str.split(sep) for a one-character separator, acting on the
character list of the string: empty string gives one empty part, and every
occurrence of the separator starts a new part. -/
def splitOnC (sep : Char) : List Char → List (List Char)
  | [] => [[]]
  | c :: cs =>
    match splitOnC sep cs with
    | [] => [[]]
    | p :: ps => if c = sep then [] :: p :: ps else (c :: p) :: ps

/-- Numeric value of a decimal digit character. -/
def digitVal (c : Char) : ℕ :=
  c.toNat - 48

/-- Value denoted by a list of decimal digit characters. -/
def decValue (l : List Char) : ℕ :=
  l.foldl (fun a c => 10 * a + digitVal c) 0

/-- Digits part of Python int(s): a nonempty all-digit string. -/
def decDigits? (l : List Char) : Option ℕ :=
  if l ≠ [] ∧ l.all Char.isDigit = true then some (decValue l) else none

/-- Python int(s) on a string: an optional sign followed by decimal digits.
Surrounding whitespace and digit-grouping underscores, which Python also
tolerates, never occur in the claims and are not modelled. -/
def pyInt : List Char → Option ℤ
  | [] => none
  | c :: cs =>
    if c = '+' then (decDigits? cs).map Int.ofNat
    else if c = '-' then (decDigits? cs).map (fun n : ℕ => -(n : ℤ))
    else (decDigits? (c :: cs)).map Int.ofNat

/-- Value of a hexadecimal digit character, if it is one (both cases). -/
def hexDigitVal? (c : Char) : Option ℕ :=
  if c.isDigit then some (digitVal c)
  else if 'a' ≤ c ∧ c ≤ 'f' then some (c.toNat - 97 + 10)
  else if 'A' ≤ c ∧ c ≤ 'F' then some (c.toNat - 65 + 10)
  else none

/-- Value denoted by a list of hex digit characters, none if any character
is not a hex digit. -/
def hexValue? (l : List Char) : Option ℕ :=
  l.foldl
    (fun acc c =>
      match acc, hexDigitVal? c with
      | some a, some d => some (16 * a + d)
      | _, _ => none)
    (some 0)

/-- Digits part of Python int(s, 16): a nonempty all-hex-digit string. -/
def hexDigits? (l : List Char) : Option ℕ :=
  if l = [] then none else hexValue? l

/-- Python int(s, 16) on a string: optional sign, then hex digits. -/
def pyIntHex : List Char → Option ℤ
  | [] => none
  | c :: cs =>
    if c = '+' then (hexDigits? cs).map Int.ofNat
    else if c = '-' then (hexDigits? cs).map (fun n : ℕ => -(n : ℤ))
    else (hexDigits? (c :: cs)).map Int.ofNat

/-- Body of the parse_color loop for one part of the '-' separated input:
strip leading '#', dispatch on a comma to the RGB branch, else on length
3 or 6 to the HEX branch (length 3 doubles every digit first), else fail. -/
def parse_segment (c : List Char) : Except PErr RGB :=
  let current_color := c.dropWhile (fun ch => ch = '#')
  if ',' ∈ current_color then
    match (splitOnC ',' current_color).map pyInt with
    | [some r, some g, some b] =>
      if 0 ≤ r ∧ r ≤ 255 ∧ 0 ≤ g ∧ g ≤ 255 ∧ 0 ≤ b ∧ b ≤ 255 then
        .ok ⟨r, g, b⟩
      else .error .invalidRGBRange
    | _ => .error .invalidRGBFormat
  else if current_color.length = 3 ∨ current_color.length = 6 then
    let cc := if current_color.length = 3
      then (current_color.map (fun ch => [ch, ch])).flatten
      else current_color
    match pyIntHex (cc.take 2), pyIntHex ((cc.drop 2).take 2),
        pyIntHex ((cc.drop 4).take 2) with
    | some r, some g, some b => .ok ⟨r, g, b⟩
    | _, _, _ => .error .invalidHexFormat
  else .error .invalidColorFormat

/-- Model of parse_color: split the input on '-', check the part count is
in 1..4, then parse the parts in order, stopping at the first failure. -/
def parse_color (color : List Char) : Except PErr (List RGB) :=
  let color_parts := splitOnC '-' color
  if 1 ≤ color_parts.length ∧ color_parts.length ≤ 4 then
    color_parts.mapM parse_segment
  else .error .invalidColorCount

theorem splitOnC_ne_nil (sep : Char) : ∀ (l : List Char), splitOnC sep l ≠ []
  | [] => by simp [splitOnC]
  | c :: cs => by
    unfold splitOnC
    cases hcs : splitOnC sep cs with
    | nil => simp
    | cons p ps => by_cases h : c = sep <;> simp [h]

theorem splitOnC_of_not_mem {sep : Char} :
    ∀ {l : List Char}, sep ∉ l → splitOnC sep l = [l]
  | [], _ => rfl
  | c :: cs, h => by
    have hc : c ≠ sep := fun e => h (e ▸ List.mem_cons_self c cs)
    have hcs : sep ∉ cs := fun m => h (List.mem_cons_of_mem c m)
    unfold splitOnC
    rw [splitOnC_of_not_mem hcs]
    simp [hc]

theorem splitOnC_append {sep : Char} :
    ∀ {xs : List Char} (ys : List Char), sep ∉ xs →
      splitOnC sep (xs ++ sep :: ys) = xs :: splitOnC sep ys
  | [], ys, _ => by
    show splitOnC sep (sep :: ys) = [] :: splitOnC sep ys
    conv_lhs => unfold splitOnC
    cases hys : splitOnC sep ys with
    | nil => exact absurd hys (splitOnC_ne_nil sep ys)
    | cons p ps => simp
  | x :: xs, ys, h => by
    have hx : x ≠ sep := fun e => h (e ▸ List.mem_cons_self x xs)
    have hxs : sep ∉ xs := fun m => h (List.mem_cons_of_mem x m)
    show splitOnC sep (x :: (xs ++ sep :: ys)) = (x :: xs) :: splitOnC sep ys
    conv_lhs => unfold splitOnC
    rw [splitOnC_append ys hxs]
    simp [hx]

theorem isDigit_ne {c : Char} (h : c.isDigit = true) :
    c ≠ '+' ∧ c ≠ '-' ∧ c ≠ '#' ∧ c ≠ ',' := by
  refine ⟨?_, ?_, ?_, ?_⟩ <;> intro e <;> rw [e] at h <;> exact absurd h (by decide)

theorem decDigits?_of_digits {l : List Char} (hne : l ≠ [])
    (hd : l.all Char.isDigit = true) : decDigits? l = some (decValue l) := by
  unfold decDigits?
  rw [if_pos ⟨hne, hd⟩]

theorem pyInt_digits : ∀ {l : List Char}, l ≠ [] →
    (∀ c ∈ l, c.isDigit = true) → pyInt l = some ((decValue l : ℕ) : ℤ)
  | [], hne, _ => absurd rfl hne
  | c :: cs, _, hd => by
    have hc := hd c (List.mem_cons_self c cs)
    obtain ⟨h1, h2, _, _⟩ := isDigit_ne hc
    show (if c = '+' then Option.map Int.ofNat (decDigits? cs)
      else if c = '-' then Option.map (fun n : ℕ => -(n : ℤ)) (decDigits? cs)
      else Option.map Int.ofNat (decDigits? (c :: cs))) =
        some ((decValue (c :: cs) : ℕ) : ℤ)
    rw [if_neg h1, if_neg h2,
      decDigits?_of_digits (List.cons_ne_nil c cs) (List.all_eq_true.mpr hd)]
    rfl

/-- State of the process-wide pseudorandom source: an infinite stream of
raw draws and a cursor.  Each randint call consumes one draw. -/
structure RandGen where
  stream : ℕ → ℕ
  idx : ℕ

/-- Model of random.randint(a, b): a uniform draw from [a, b] inclusive,
realised as a plus the next raw draw reduced mod (b - a + 1). -/
def randint (g : RandGen) (a b : ℕ) : ℕ × RandGen :=
  (a + g.stream g.idx % (b + 1 - a), ⟨g.stream, g.idx + 1⟩)

/-- Loop of generate_random_colors: one iteration per requested color,
three channel draws per iteration, colors appended in draw order. -/
def randColorsLoop : ℕ → RandGen → List RGB × RandGen
  | 0, g => ([], g)
  | n + 1, g =>
    let (r, g1) := randint g 0 255
    let (gr, g2) := randint g1 0 255
    let (b, g3) := randint g2 0 255
    let (rest, g4) := randColorsLoop n g3
    (⟨(r : ℤ), (gr : ℤ), (b : ℤ)⟩ :: rest, g4)

/-- Model of generate_random_colors: when no count is given, draw it
uniformly from [1, 4] first. -/
def generate_random_colors (g : RandGen) (count : Option ℕ) :
    List RGB × RandGen :=
  match count with
  | none =>
    let (n, g1) := randint g 1 4
    randColorsLoop n g1
  | some n => randColorsLoop n g

/-- Error at the CLI boundary: parser.error(...) aborts the run when an
explicit random color count is outside 1..4. -/
inductive CliErr where
  | invalidColorCount
deriving DecidableEq, Repr

/-- Lines 21 to 31 of huedesk_cli.py after the random token matched:
digit is the captured explicit count, none when the input was the bare
keyword (the int(None) TypeError branch of the source). -/
def cli_random_colors (g : RandGen) (digit : Option ℕ) :
    Except CliErr (List RGB) :=
  match digit with
  | some n =>
    if 1 ≤ n ∧ n ≤ 4 then .ok (generate_random_colors g (some n)).1
    else .error .invalidColorCount
  | none => .ok (generate_random_colors g none).1

/-- Channel-range predicate for one color: every channel in [0, 255]. -/
def inRangeRGB (c : RGB) : Prop :=
  0 ≤ c.r ∧ c.r ≤ 255 ∧ 0 ≤ c.g ∧ c.g ≤ 255 ∧ 0 ≤ c.b ∧ c.b ≤ 255

instance (c : RGB) : Decidable (inRangeRGB c) := by
  unfold inRangeRGB; infer_instance

theorem randint_le_255 (g : RandGen) :
    (randint g 0 255).1 ≤ 255 := by
  unfold randint
  simp only [Nat.zero_add]
  exact Nat.le_of_lt_succ (Nat.mod_lt _ (by norm_num))

theorem randint_intCast_le_255 (g : RandGen) :
    ((randint g 0 255).1 : ℤ) ≤ 255 := by
  exact_mod_cast randint_le_255 g

theorem randColorsLoop_length : ∀ (n : ℕ) (g : RandGen),
    (randColorsLoop n g).1.length = n
  | 0, _ => rfl
  | n + 1, g => by
    unfold randColorsLoop
    simp only [List.length_cons]
    rw [randColorsLoop_length n]

theorem randColorsLoop_inRange : ∀ (n : ℕ) (g : RandGen),
    ∀ c ∈ (randColorsLoop n g).1, inRangeRGB c
  | 0, _ => by simp [randColorsLoop]
  | n + 1, g => by
    unfold randColorsLoop
    intro c hc
    simp only [List.mem_cons] at hc
    rcases hc with hc | hc
    · subst hc
      exact ⟨Int.ofNat_nonneg _, randint_intCast_le_255 _, Int.ofNat_nonneg _,
        randint_intCast_le_255 _, Int.ofNat_nonneg _, randint_intCast_le_255 _⟩
    · exact randColorsLoop_inRange n _ c hc

theorem getD_mem {α : Type} {l : List α} {i : ℕ} (h : i < l.length) (d : α) :
    l.getD i d ∈ l := by
  rw [List.getD_eq_getElem l d h]
  exact List.getElem_mem h

theorem pytruncNat_natCast_div (a b : ℕ) :
    pytruncNat ((a : ℚ) / (b : ℚ)) = a / b := by
  unfold pytruncNat
  rw [pytrunc_of_nonneg (by positivity), Int.floor_toNat, Nat.floor_div_nat,
    Nat.floor_natCast]

/-- C5: in preview mode, a requested width above the 1000 threshold scales
the raster to width int(width * (1000/width)) = 1000 and height
int(height * (1000/width)) = 1000*height/width with truncation; a width of
at most 1000 keeps the requested size unscaled; in particular width 2000
gives scaled width 1000 and scaled height = height halved, truncating. -/
theorem C5_preview_scaling (w h : ℕ) :
    (1000 < w → output_size "preview" w h = (1000, 1000 * h / w)) ∧
    (w ≤ 1000 → output_size "preview" w h = (w, h)) ∧
    (w = 2000 → output_size "preview" w h = (1000, h / 2)) := by
  have hmode : output_size "preview" w h =
      if 1000 < w then
        (pytruncNat ((w : ℚ) * (1000 / (w : ℚ))),
         pytruncNat ((h : ℚ) * (1000 / (w : ℚ))))
      else (w, h) := by
    unfold output_size
    rw [if_neg (by decide), if_pos rfl]
  have key : 1000 < w → output_size "preview" w h = (1000, 1000 * h / w) := by
    intro hw
    have hw0 : (w : ℚ) ≠ 0 := by
      have : (0 : ℚ) < (w : ℚ) := by exact_mod_cast Nat.lt_trans (by norm_num) hw
      linarith
    have e1 : (w : ℚ) * (1000 / (w : ℚ)) = ((1000 : ℕ) : ℚ) / ((1 : ℕ) : ℚ) := by
      field_simp
    have e2 : (h : ℚ) * (1000 / (w : ℚ)) = ((1000 * h : ℕ) : ℚ) / ((w : ℕ) : ℚ) := by
      push_cast
      ring
    rw [hmode, if_pos hw, e1, e2, pytruncNat_natCast_div, pytruncNat_natCast_div]
  refine ⟨key, ?_, ?_⟩
  · intro hw
    rw [hmode, if_neg (by omega)]
  · intro he
    subst he
    rw [key (by norm_num)]
    rw [show (2000 : ℕ) = 1000 * 2 from rfl, Nat.mul_div_mul_left h 2 (by norm_num)]

/-- C3: in the 2-point gradient on a width x height raster (both at least
2) with top-left and bottom-right colors in range, the pixel at (x, y) has
every channel equal to tl + t*(br - tl) truncated (not rounded) to an
integer, with t = (x + y)/(width + height - 2). -/
theorem C3_2point_formula (w h x y : ℕ) (tl br : RGB)
    (hw : 2 ≤ w) (hh : 2 ≤ h) (htl : inRangeRGB tl) (hbr : inRangeRGB br)
    (hx : x < w) (hy : y < h) :
    (generate_2point_gradient w h [tl, br]).map (fun im => im (x, y)) =
      .ok ⟨pytrunc ((tl.r : ℚ) +
            ((x : ℚ) + (y : ℚ)) / ((w : ℚ) + (h : ℚ) - 2) * ((br.r : ℚ) - (tl.r : ℚ))),
          pytrunc ((tl.g : ℚ) +
            ((x : ℚ) + (y : ℚ)) / ((w : ℚ) + (h : ℚ) - 2) * ((br.g : ℚ) - (tl.g : ℚ))),
          pytrunc ((tl.b : ℚ) +
            ((x : ℚ) + (y : ℚ)) / ((w : ℚ) + (h : ℚ) - 2) * ((br.b : ℚ) - (tl.b : ℚ)))⟩ := by
  have hwq : (2 : ℚ) ≤ (w : ℚ) := by exact_mod_cast hw
  have hhq : (2 : ℚ) ≤ (h : ℚ) := by exact_mod_cast hh
  have hd : (w : ℚ) + (h : ℚ) - 2 ≠ 0 := by linarith
  rw [generate_2point_ok w h [tl, br] hd]
  show Except.ok
    ((renderPure (pixel2 ([tl, br].getD 0 blackRGB) ([tl, br].getD 1 blackRGB) w h) w h)
      (x, y)) = _
  rw [renderPure_lookup _ hx hy]
  rfl

theorem cast_pred_div_self {n : ℕ} (hn : 2 ≤ n) :
    ((n - 1 : ℕ) : ℚ) / ((n : ℚ) - 1) = 1 := by
  have h1 : ((n - 1 : ℕ) : ℚ) = (n : ℚ) - 1 := by
    rw [Nat.cast_sub (by omega), Nat.cast_one]
  have hne : (n : ℚ) - 1 ≠ 0 := by
    have : (2 : ℚ) ≤ (n : ℚ) := by exact_mod_cast hn
    linarith
  rw [h1, div_self hne]

theorem pixel4_corners (c0 c1 c2 c3 : RGB) {w h : ℕ} (hw : 2 ≤ w) (hh : 2 ≤ h) :
    pixel4 c0 c1 c2 c3 w h 0 0 = c0 ∧
    pixel4 c0 c1 c2 c3 w h (w - 1) 0 = c1 ∧
    pixel4 c0 c1 c2 c3 w h 0 (h - 1) = c2 ∧
    pixel4 c0 c1 c2 c3 w h (w - 1) (h - 1) = c3 := by
  have hx1 := cast_pred_div_self hw
  have hy1 := cast_pred_div_self hh
  refine ⟨?_, ?_, ?_, ?_⟩ <;>
    simp only [pixel4, Nat.cast_zero, zero_div, hx1, hy1, interp_zero, interp_one]

theorem pixel3_bottom_right (c0 c1 c2 : RGB) {w h : ℕ} (hw : 2 ≤ w) (hh : 2 ≤ h) :
    pixel3 c0 c1 c2 w h (w - 1) (h - 1) = c1 := by
  have hx1 := cast_pred_div_self hw
  have hy1 := cast_pred_div_self hh
  simp only [pixel3, hx1, hy1, interp_one]

/-- C4: for width, height at least 2 and four in-range colors, the 4-point
gradient takes colors[0], colors[1], colors[2], colors[3] exactly at the
corners (0,0), (width-1,0), (0,height-1), (width-1,height-1). -/
theorem C4_4point_corners (w h : ℕ) (c0 c1 c2 c3 : RGB)
    (hw : 2 ≤ w) (hh : 2 ≤ h) (hr0 : inRangeRGB c0) (hr1 : inRangeRGB c1)
    (hr2 : inRangeRGB c2) (hr3 : inRangeRGB c3) :
    (generate_4point_gradient w h [c0, c1, c2, c3]).map
        (fun im => (im (0, 0), im (w - 1, 0), im (0, h - 1), im (w - 1, h - 1))) =
      .ok (c0, c1, c2, c3) := by
  have hwq : (w : ℚ) - 1 ≠ 0 := by
    have : (2 : ℚ) ≤ (w : ℚ) := by exact_mod_cast hw
    linarith
  have hhq : (h : ℚ) - 1 ≠ 0 := by
    have : (2 : ℚ) ≤ (h : ℚ) := by exact_mod_cast hh
    linarith
  rw [generate_4point_ok w h [c0, c1, c2, c3] hwq hhq]
  obtain ⟨e0, e1, e2, e3⟩ := pixel4_corners c0 c1 c2 c3 hw hh
  show Except.ok
      (renderPure (pixel4 c0 c1 c2 c3 w h) w h (0, 0),
       renderPure (pixel4 c0 c1 c2 c3 w h) w h (w - 1, 0),
       renderPure (pixel4 c0 c1 c2 c3 w h) w h (0, h - 1),
       renderPure (pixel4 c0 c1 c2 c3 w h) w h (w - 1, h - 1)) = _
  have l1 := renderPure_lookup (pixel4 c0 c1 c2 c3 w h)
    (show 0 < w by omega) (show 0 < h by omega)
  have l2 := renderPure_lookup (pixel4 c0 c1 c2 c3 w h)
    (show w - 1 < w by omega) (show 0 < h by omega)
  have l3 := renderPure_lookup (pixel4 c0 c1 c2 c3 w h)
    (show 0 < w by omega) (show h - 1 < h by omega)
  have l4 := renderPure_lookup (pixel4 c0 c1 c2 c3 w h)
    (show w - 1 < w by omega) (show h - 1 < h by omega)
  rw [l1, l2, l3, l4, e0, e1, e2, e3]

/-- C10: for width, height at least 2 and three in-range colors, the
emergent bottom-right corner (width-1, height-1) of the 3-point gradient
equals colors[1], the top-right anchor, exactly. -/
theorem C10_3point_bottom_right (w h : ℕ) (c0 c1 c2 : RGB)
    (hw : 2 ≤ w) (hh : 2 ≤ h) (hr0 : inRangeRGB c0) (hr1 : inRangeRGB c1)
    (hr2 : inRangeRGB c2) :
    (generate_3point_gradient w h [c0, c1, c2]).map
        (fun im => im (w - 1, h - 1)) = .ok c1 := by
  have hwq : (w : ℚ) - 1 ≠ 0 := by
    have : (2 : ℚ) ≤ (w : ℚ) := by exact_mod_cast hw
    linarith
  have hhq : (h : ℚ) - 1 ≠ 0 := by
    have : (2 : ℚ) ≤ (h : ℚ) := by exact_mod_cast hh
    linarith
  rw [generate_3point_ok w h [c0, c1, c2] hwq hhq]
  show Except.ok (renderPure (pixel3 c0 c1 c2 w h) w h (w - 1, h - 1)) = _
  rw [renderPure_lookup (pixel3 c0 c1 c2 w h)
    (show w - 1 < w by omega) (show h - 1 < h by omega)]
  rw [pixel3_bottom_right c0 c1 c2 hw hh]

/-- Property of a fallible pixel computation: it neither faulted nor left
the valid channel range. -/
def pixelOkInRange (e : Except GenErr RGB) : Prop :=
  match e with
  | .ok c => inRangeRGB c
  | .error _ => False

theorem interp_rgb_inRange {c0 c1 : RGB} {t : ℚ}
    (h0 : inRangeRGB c0) (h1 : inRangeRGB c1) (ht0 : 0 ≤ t) (ht1 : t ≤ 1) :
    inRangeRGB ⟨interp c0.r c1.r t, interp c0.g c1.g t, interp c0.b c1.b t⟩ := by
  obtain ⟨a1, a2, a3, a4, a5, a6⟩ := h0
  obtain ⟨b1, b2, b3, b4, b5, b6⟩ := h1
  obtain ⟨r1, r2⟩ := interp_bounds a1 a2 b1 b2 ht0 ht1
  obtain ⟨g1, g2⟩ := interp_bounds a3 a4 b3 b4 ht0 ht1
  obtain ⟨bb1, bb2⟩ := interp_bounds a5 a6 b5 b6 ht0 ht1
  exact ⟨r1, r2, g1, g2, bb1, bb2⟩

/-- C9: for width, height at least 2 and input colors with channels in
[0, 255], every pixel produced by the 2-, 3- and 4-point gradient routines
keeps every channel in [0, 255]; no interpolation step leaves the range. -/
theorem C9_channels_in_range (w h x y : ℕ) (colors : List RGB)
    (hw : 2 ≤ w) (hh : 2 ≤ h) (hb : ∀ c ∈ colors, inRangeRGB c)
    (hx : x < w) (hy : y < h) :
    (colors.length = 2 → pixelOkInRange
      ((generate_2point_gradient w h colors).map (fun im => im (x, y)))) ∧
    (colors.length = 3 → pixelOkInRange
      ((generate_3point_gradient w h colors).map (fun im => im (x, y)))) ∧
    (colors.length = 4 → pixelOkInRange
      ((generate_4point_gradient w h colors).map (fun im => im (x, y)))) := by
  have hwq : (2 : ℚ) ≤ (w : ℚ) := by exact_mod_cast hw
  have hhq : (2 : ℚ) ≤ (h : ℚ) := by exact_mod_cast hh
  have hxq : (x : ℚ) ≤ (w : ℚ) - 1 := by
    have h1 : (x : ℚ) ≤ ((w - 1 : ℕ) : ℚ) := by exact_mod_cast (by omega : x ≤ w - 1)
    rwa [Nat.cast_sub (by omega), Nat.cast_one] at h1
  have hyq : (y : ℚ) ≤ (h : ℚ) - 1 := by
    have h1 : (y : ℚ) ≤ ((h - 1 : ℕ) : ℚ) := by exact_mod_cast (by omega : y ≤ h - 1)
    rwa [Nat.cast_sub (by omega), Nat.cast_one] at h1
  have hwpos : (0 : ℚ) < (w : ℚ) - 1 := by linarith
  have hhpos : (0 : ℚ) < (h : ℚ) - 1 := by linarith
  have htx0 : 0 ≤ (x : ℚ) / ((w : ℚ) - 1) := div_nonneg (by positivity) hwpos.le
  have htx1 : (x : ℚ) / ((w : ℚ) - 1) ≤ 1 := by
    rw [div_le_one hwpos]; linarith
  have hty0 : 0 ≤ (y : ℚ) / ((h : ℚ) - 1) := div_nonneg (by positivity) hhpos.le
  have hty1 : (y : ℚ) / ((h : ℚ) - 1) ≤ 1 := by
    rw [div_le_one hhpos]; linarith
  have hdpos : (0 : ℚ) < (w : ℚ) + (h : ℚ) - 2 := by linarith
  have ht20 : 0 ≤ ((x : ℚ) + (y : ℚ)) / ((w : ℚ) + (h : ℚ) - 2) :=
    div_nonneg (by positivity) hdpos.le
  have ht21 : ((x : ℚ) + (y : ℚ)) / ((w : ℚ) + (h : ℚ) - 2) ≤ 1 := by
    rw [div_le_one hdpos]; linarith
  refine ⟨?_, ?_, ?_⟩
  · intro hlen
    have hm0 : colors.getD 0 blackRGB ∈ colors := getD_mem (by omega) blackRGB
    have hm1 : colors.getD 1 blackRGB ∈ colors := getD_mem (by omega) blackRGB
    rw [generate_2point_ok w h colors (by linarith)]
    show inRangeRGB
      (renderPure (pixel2 (colors.getD 0 blackRGB) (colors.getD 1 blackRGB) w h)
        w h (x, y))
    rw [renderPure_lookup _ hx hy]
    exact interp_rgb_inRange (hb _ hm0) (hb _ hm1) ht20 ht21
  · intro hlen
    have hm0 : colors.getD 0 blackRGB ∈ colors := getD_mem (by omega) blackRGB
    have hm1 : colors.getD 1 blackRGB ∈ colors := getD_mem (by omega) blackRGB
    have hm2 : colors.getD 2 blackRGB ∈ colors := getD_mem (by omega) blackRGB
    rw [generate_3point_ok w h colors (by linarith) (by linarith)]
    show inRangeRGB
      (renderPure (pixel3 (colors.getD 0 blackRGB) (colors.getD 1 blackRGB)
        (colors.getD 2 blackRGB) w h) w h (x, y))
    rw [renderPure_lookup _ hx hy]
    obtain ⟨a1, a2, a3, a4, a5, a6⟩ := hb _ hm0
    obtain ⟨b1, b2, b3, b4, b5, b6⟩ := hb _ hm1
    obtain ⟨d1, d2, d3, d4, d5, d6⟩ := hb _ hm2
    have hr := interp_bounds
      (interp_bounds a1 a2 d1 d2 hty0 hty1).1 (interp_bounds a1 a2 d1 d2 hty0 hty1).2
      (interp_bounds a1 a2 b1 b2 htx0 htx1).1 (interp_bounds a1 a2 b1 b2 htx0 htx1).2
      htx0 htx1
    have hg := interp_bounds
      (interp_bounds a3 a4 d3 d4 hty0 hty1).1 (interp_bounds a3 a4 d3 d4 hty0 hty1).2
      (interp_bounds a3 a4 b3 b4 htx0 htx1).1 (interp_bounds a3 a4 b3 b4 htx0 htx1).2
      htx0 htx1
    have hbl := interp_bounds
      (interp_bounds a5 a6 d5 d6 hty0 hty1).1 (interp_bounds a5 a6 d5 d6 hty0 hty1).2
      (interp_bounds a5 a6 b5 b6 htx0 htx1).1 (interp_bounds a5 a6 b5 b6 htx0 htx1).2
      htx0 htx1
    exact ⟨hr.1, hr.2, hg.1, hg.2, hbl.1, hbl.2⟩
  · intro hlen
    have hm0 : colors.getD 0 blackRGB ∈ colors := getD_mem (by omega) blackRGB
    have hm1 : colors.getD 1 blackRGB ∈ colors := getD_mem (by omega) blackRGB
    have hm2 : colors.getD 2 blackRGB ∈ colors := getD_mem (by omega) blackRGB
    have hm3 : colors.getD 3 blackRGB ∈ colors := getD_mem (by omega) blackRGB
    rw [generate_4point_ok w h colors (by linarith) (by linarith)]
    show inRangeRGB
      (renderPure (pixel4 (colors.getD 0 blackRGB) (colors.getD 1 blackRGB)
        (colors.getD 2 blackRGB) (colors.getD 3 blackRGB) w h) w h (x, y))
    rw [renderPure_lookup _ hx hy]
    obtain ⟨a1, a2, a3, a4, a5, a6⟩ := hb _ hm0
    obtain ⟨b1, b2, b3, b4, b5, b6⟩ := hb _ hm1
    obtain ⟨d1, d2, d3, d4, d5, d6⟩ := hb _ hm2
    obtain ⟨e1, e2, e3, e4, e5, e6⟩ := hb _ hm3
    have hr := interp_bounds
      (interp_bounds a1 a2 b1 b2 htx0 htx1).1 (interp_bounds a1 a2 b1 b2 htx0 htx1).2
      (interp_bounds d1 d2 e1 e2 htx0 htx1).1 (interp_bounds d1 d2 e1 e2 htx0 htx1).2
      hty0 hty1
    have hg := interp_bounds
      (interp_bounds a3 a4 b3 b4 htx0 htx1).1 (interp_bounds a3 a4 b3 b4 htx0 htx1).2
      (interp_bounds d3 d4 e3 e4 htx0 htx1).1 (interp_bounds d3 d4 e3 e4 htx0 htx1).2
      hty0 hty1
    have hbl := interp_bounds
      (interp_bounds a5 a6 b5 b6 htx0 htx1).1 (interp_bounds a5 a6 b5 b6 htx0 htx1).2
      (interp_bounds d5 d6 e5 e6 htx0 htx1).1 (interp_bounds d5 d6 e5 e6 htx0 htx1).2
      hty0 hty1
    exact ⟨hr.1, hr.2, hg.1, hg.2, hbl.1, hbl.2⟩

/-- C1 (evidence): for a color count outside 1..4 and a valid mode,
create_gradient_color_image raises no ImageGeneratorError at all: with an
empty color list in generate mode it saves the default black raster at the
requested size, and with five colors in preview mode it shows the black
raster, although its own docstring promises an ImageGeneratorError when
the number of colors is invalid. -/
theorem C1_bad_color_count_not_rejected :
    (create_gradient_color_image 2 2 [] "wallpaper.png" "generate").map
        (fun o => (o.width, o.height, o.sink, o.image (0, 0), o.image (1, 1))) =
      .ok (2, 2, .savedTo "wallpaper.png", blackRGB, blackRGB) ∧
    (create_gradient_color_image 2 2
        [blackRGB, blackRGB, blackRGB, blackRGB, blackRGB] "wallpaper.png"
        "preview").map (fun o => (o.width, o.height, o.sink)) =
      .ok (2, 2, .shown) :=
  ⟨rfl, rfl⟩

theorem foldlM_error {α β : Type} (l : List α) (f : β → α → Except GenErr β)
    (b : β) (a : α) (e : GenErr) (h : f b a = .error e) :
    (a :: l).foldlM f b = .error e := by
  show f b a >>= _ = _
  rw [h]
  rfl

theorem render_error_first (pix : ℕ → ℕ → Except GenErr RGB) (w h : ℕ)
    (e : GenErr) (hw : 1 ≤ w) (hh : 1 ≤ h) (hp : pix 0 0 = .error e) :
    render pix w h = .error e := by
  obtain ⟨w1, rfl⟩ : ∃ w1, w = w1 + 1 := ⟨w - 1, by omega⟩
  obtain ⟨h1, rfl⟩ : ∃ h1, h = h1 + 1 := ⟨h - 1, by omega⟩
  unfold render
  rw [List.range_succ_eq_map]
  apply foldlM_error
  unfold rowRender
  rw [List.range_succ_eq_map]
  apply foldlM_error
  show pix 0 0 >>= _ = _
  rw [hp]
  rfl

/-- C2 (evidence): width 1 or height 1 reaching the 3- or 4-color path is
not rejected by any validation: the very first pixel computation divides
by zero (ZeroDivisionError); no clear dimension error exists in the code. -/
theorem C2_dimension_one_division_by_zero :
    generate_3point_gradient 1 2 [blackRGB, blackRGB, blackRGB] =
      .error .zeroDivision ∧
    generate_3point_gradient 2 1 [blackRGB, blackRGB, blackRGB] =
      .error .zeroDivision ∧
    generate_4point_gradient 1 2 [blackRGB, blackRGB, blackRGB, blackRGB] =
      .error .zeroDivision ∧
    generate_4point_gradient 2 1 [blackRGB, blackRGB, blackRGB, blackRGB] =
      .error .zeroDivision := by
  have hz1 : (((1 : ℕ) : ℚ)) - 1 = 0 := by norm_num
  have hnz2 : (((2 : ℕ) : ℚ)) - 1 ≠ 0 := by norm_num
  have hdiv0 : pydiv (((0 : ℕ) : ℚ)) ((((1 : ℕ) : ℚ)) - 1) = .error .zeroDivision := by
    unfold pydiv
    rw [if_pos hz1]
  have hdivok : pydiv (((0 : ℕ) : ℚ)) ((((2 : ℕ) : ℚ)) - 1) =
      .ok ((((0 : ℕ) : ℚ)) / ((((2 : ℕ) : ℚ)) - 1)) := by
    unfold pydiv
    rw [if_neg hnz2]
  refine ⟨?_, ?_, ?_, ?_⟩
  · unfold generate_3point_gradient
    apply render_error_first _ _ _ _ (by norm_num) (by norm_num)
    show pydiv (((0 : ℕ) : ℚ)) ((((1 : ℕ) : ℚ)) - 1) >>= _ = _
    rw [hdiv0]
    rfl
  · unfold generate_3point_gradient
    apply render_error_first _ _ _ _ (by norm_num) (by norm_num)
    show pydiv (((0 : ℕ) : ℚ)) ((((2 : ℕ) : ℚ)) - 1) >>= _ = _
    rw [hdivok]
    show pydiv (((0 : ℕ) : ℚ)) ((((1 : ℕ) : ℚ)) - 1) >>= _ = _
    rw [hdiv0]
    rfl
  · unfold generate_4point_gradient
    apply render_error_first _ _ _ _ (by norm_num) (by norm_num)
    show pydiv (((0 : ℕ) : ℚ)) ((((1 : ℕ) : ℚ)) - 1) >>= _ = _
    rw [hdiv0]
    rfl
  · unfold generate_4point_gradient
    apply render_error_first _ _ _ _ (by norm_num) (by norm_num)
    show pydiv (((0 : ℕ) : ℚ)) ((((2 : ℕ) : ℚ)) - 1) >>= _ = _
    rw [hdivok]
    show pydiv (((0 : ℕ) : ℚ)) ((((1 : ℕ) : ℚ)) - 1) >>= _ = _
    rw [hdiv0]
    rfl

theorem dropWhile_hash_cons {c : Char} (h : c ≠ '#') (l : List Char) :
    (c :: l).dropWhile (fun ch => ch = '#') = c :: l := by
  simp [List.dropWhile_cons, h]

/-- C6: a single-segment input whose three comma separated parts are
decimal digit literals resolves to the one-element list of the denoted
RGB triple when every component is at most 255, and fails with the
range ParserError otherwise (components written in digits are never
negative, so only the upper bound can fail). -/
theorem C6_rgb_segment (d1 d2 d3 : List Char)
    (h1 : d1 ≠ []) (h1d : ∀ c ∈ d1, c.isDigit = true)
    (h2 : d2 ≠ []) (h2d : ∀ c ∈ d2, c.isDigit = true)
    (h3 : d3 ≠ []) (h3d : ∀ c ∈ d3, c.isDigit = true) :
    parse_color (d1 ++ ',' :: (d2 ++ ',' :: d3)) =
      if decValue d1 ≤ 255 ∧ decValue d2 ≤ 255 ∧ decValue d3 ≤ 255 then
        .ok [⟨(decValue d1 : ℤ), (decValue d2 : ℤ), (decValue d3 : ℤ)⟩]
      else .error .invalidRGBRange := by
  obtain ⟨c1, cs1, rfl⟩ : ∃ c cs, d1 = c :: cs := by
    cases d1 with
    | nil => exact absurd rfl h1
    | cons c cs => exact ⟨c, cs, rfl⟩
  have hc1 : c1.isDigit = true := h1d c1 (List.mem_cons_self _ _)
  have hc1hash : c1 ≠ '#' := (isDigit_ne hc1).2.2.1
  have hncomma1 : ',' ∉ (c1 :: cs1) := fun hm => absurd (h1d _ hm) (by decide)
  have hncomma2 : ',' ∉ d2 := fun hm => absurd (h2d _ hm) (by decide)
  have hncomma3 : ',' ∉ d3 := fun hm => absurd (h3d _ hm) (by decide)
  have hmem_all : ∀ c ∈ c1 :: (cs1 ++ ',' :: (d2 ++ ',' :: d3)),
      c.isDigit = true ∨ c = ',' := by
    intro c hc
    rcases List.mem_cons.mp hc with rfl | hc
    · exact Or.inl hc1
    · rcases List.mem_append.mp hc with hc | hc
      · exact Or.inl (h1d _ (List.mem_cons_of_mem _ hc))
      · rcases List.mem_cons.mp hc with rfl | hc
        · exact Or.inr rfl
        · rcases List.mem_append.mp hc with hc | hc
          · exact Or.inl (h2d _ hc)
          · rcases List.mem_cons.mp hc with rfl | hc
            · exact Or.inr rfl
            · exact Or.inl (h3d _ hc)
  have hnotdash : '-' ∉ c1 :: (cs1 ++ ',' :: (d2 ++ ',' :: d3)) := by
    intro hm
    rcases hmem_all '-' hm with hd | hd
    · exact absurd hd (by decide)
    · exact absurd hd (by decide)
  have hsplit2 : splitOnC ',' (c1 :: (cs1 ++ ',' :: (d2 ++ ',' :: d3))) =
      (c1 :: cs1) :: d2 :: [d3] := by
    have ha : splitOnC ',' ((c1 :: cs1) ++ ',' :: (d2 ++ ',' :: d3)) =
        (c1 :: cs1) :: splitOnC ',' (d2 ++ ',' :: d3) :=
      splitOnC_append (d2 ++ ',' :: d3) hncomma1
    rw [List.cons_append] at ha
    rw [ha, splitOnC_append _ hncomma2, splitOnC_of_not_mem hncomma3]
  have hseg : parse_segment (c1 :: (cs1 ++ ',' :: (d2 ++ ',' :: d3))) =
      if decValue (c1 :: cs1) ≤ 255 ∧ decValue d2 ≤ 255 ∧ decValue d3 ≤ 255 then
        .ok ⟨(decValue (c1 :: cs1) : ℤ), (decValue d2 : ℤ), (decValue d3 : ℤ)⟩
      else .error .invalidRGBRange := by
    simp only [parse_segment]
    rw [dropWhile_hash_cons hc1hash]
    rw [if_pos (by simp)]
    rw [hsplit2]
    rw [List.map_cons, List.map_cons, List.map_cons, List.map_nil,
      pyInt_digits (List.cons_ne_nil c1 cs1) h1d, pyInt_digits h2 h2d,
      pyInt_digits h3 h3d]
    show (if (0 : ℤ) ≤ (decValue (c1 :: cs1) : ℤ) ∧ (decValue (c1 :: cs1) : ℤ) ≤ 255 ∧
        (0 : ℤ) ≤ (decValue d2 : ℤ) ∧ (decValue d2 : ℤ) ≤ 255 ∧
        (0 : ℤ) ≤ (decValue d3 : ℤ) ∧ (decValue d3 : ℤ) ≤ 255 then
          Except.ok (⟨(decValue (c1 :: cs1) : ℤ), (decValue d2 : ℤ), (decValue d3 : ℤ)⟩ : RGB)
        else Except.error PErr.invalidRGBRange) = _
    by_cases hcond : decValue (c1 :: cs1) ≤ 255 ∧ decValue d2 ≤ 255 ∧ decValue d3 ≤ 255
    · rw [if_pos ⟨Int.ofNat_nonneg _, by exact_mod_cast hcond.1, Int.ofNat_nonneg _,
        by exact_mod_cast hcond.2.1, Int.ofNat_nonneg _, by exact_mod_cast hcond.2.2⟩,
        if_pos hcond]
    · rw [if_neg (fun hc => hcond ⟨by exact_mod_cast hc.2.1,
        by exact_mod_cast hc.2.2.2.1, by exact_mod_cast hc.2.2.2.2.2⟩),
        if_neg hcond]
  simp only [parse_color, List.cons_append]
  rw [splitOnC_of_not_mem hnotdash]
  rw [if_pos (by simp)]
  rw [List.mapM_cons, List.mapM_nil]
  rw [hseg]
  by_cases hcond : decValue (c1 :: cs1) ≤ 255 ∧ decValue d2 ≤ 255 ∧ decValue d3 ≤ 255
  · rw [if_pos hcond, if_pos hcond]
    rfl
  · rw [if_neg hcond, if_neg hcond]
    rfl

/-- Hexadecimal digit character, either letter case. -/
def isHexDigitC (c : Char) : Bool :=
  c.isDigit || (decide ('a' ≤ c) && decide (c ≤ 'f')) ||
    (decide ('A' ≤ c) && decide (c ≤ 'F'))

theorem isHexDigitC_ne {c : Char} (h : isHexDigitC c = true) :
    c ≠ '#' ∧ c ≠ ',' ∧ c ≠ '-' := by
  refine ⟨?_, ?_, ?_⟩ <;> intro e <;> rw [e] at h <;> exact absurd h (by decide)

theorem dropWhile_hash_hash (l : List Char) :
    ('#' :: l).dropWhile (fun ch => ch = '#') = l.dropWhile (fun ch => ch = '#') := by
  simp [List.dropWhile_cons]

theorem parse_segment_hash (l : List Char) :
    parse_segment ('#' :: l) = parse_segment l := by
  simp only [parse_segment]
  rw [dropWhile_hash_hash]

/-- C7: a 3-character segment of hex digits, with or without a leading
'#', parses to exactly the same RGB triple as the 6-character segment
obtained by doubling each digit. -/
theorem C7_hex3_doubling (a b c : Char)
    (ha : isHexDigitC a = true) (hb : isHexDigitC b = true)
    (hc : isHexDigitC c = true) :
    parse_color [a, b, c] = parse_color [a, a, b, b, c, c] ∧
    parse_color ['#', a, b, c] = parse_color ['#', a, a, b, b, c, c] := by
  have hall3 : ∀ x ∈ [a, b, c], isHexDigitC x = true := by
    intro x hx
    simp only [List.mem_cons, List.not_mem_nil, or_false] at hx
    rcases hx with rfl | rfl | rfl <;> assumption
  have hall6 : ∀ x ∈ [a, a, b, b, c, c], isHexDigitC x = true := by
    intro x hx
    simp only [List.mem_cons, List.not_mem_nil, or_false] at hx
    rcases hx with rfl | rfl | rfl | rfl | rfl | rfl <;> assumption
  have hmemhex : ∀ (l : List Char), (∀ x ∈ l, isHexDigitC x = true) → ',' ∉ l :=
    fun l hl hm => absurd (hl _ hm) (by decide)
  have hdash : ∀ (l : List Char), (∀ x ∈ l, isHexDigitC x = true) → '-' ∉ l :=
    fun l hl hm => absurd (hl _ hm) (by decide)
  have hdash4 : ∀ (l : List Char), (∀ x ∈ l, isHexDigitC x = true) →
      '-' ∉ '#' :: l := by
    intro l hl hm
    rcases List.mem_cons.mp hm with e | hm
    · exact absurd e (by decide)
    · exact absurd (hl _ hm) (by decide)
  have hdup : (([a, b, c].map (fun ch => [ch, ch])).flatten) = [a, a, b, b, c, c] := rfl
  have hseg : parse_segment [a, b, c] = parse_segment [a, a, b, b, c, c] := by
    simp only [parse_segment]
    rw [dropWhile_hash_cons (isHexDigitC_ne ha).1,
      dropWhile_hash_cons (isHexDigitC_ne ha).1]
    rw [if_neg (hmemhex _ hall3), if_neg (hmemhex _ hall6)]
    rw [if_pos (Or.inl (by simp : [a, b, c].length = 3)),
      if_pos (Or.inr (by simp : [a, a, b, b, c, c].length = 6))]
    rw [if_pos (by simp : [a, b, c].length = 3),
      if_neg (by simp : ¬ [a, a, b, b, c, c].length = 3)]
    rw [hdup]
  constructor
  · simp only [parse_color]
    rw [splitOnC_of_not_mem (hdash _ hall3), splitOnC_of_not_mem (hdash _ hall6)]
    rw [if_pos (by simp), if_pos (by simp)]
    rw [List.mapM_cons, List.mapM_cons, List.mapM_nil, hseg]
  · simp only [parse_color]
    rw [splitOnC_of_not_mem (hdash4 _ hall3), splitOnC_of_not_mem (hdash4 _ hall6)]
    rw [if_pos (by simp), if_pos (by simp)]
    rw [List.mapM_cons, List.mapM_cons, List.mapM_nil,
      parse_segment_hash, parse_segment_hash, hseg]

/-- Outcome demanded of the CLI random branch on success: a color list of
exactly the requested length with every channel in range. -/
def cliOkCount (e : Except CliErr (List RGB)) (n : ℕ) : Prop :=
  match e with
  | .ok cs => cs.length = n ∧ ∀ c ∈ cs, inRangeRGB c
  | .error _ => False

/-- C8: in random mode with an explicit count, a count in 1..4 yields
exactly that many random colors with all channels in [0, 255], whatever
the random draws; a count outside 1..4 aborts with the invalid-count
error instead of returning a color list. -/
theorem C8_random_count (g : RandGen) (n : ℕ) :
    (1 ≤ n ∧ n ≤ 4 → cliOkCount (cli_random_colors g (some n)) n) ∧
    (¬(1 ≤ n ∧ n ≤ 4) →
      cli_random_colors g (some n) = .error .invalidColorCount) := by
  constructor
  · intro hn
    show cliOkCount
      (if 1 ≤ n ∧ n ≤ 4 then .ok (generate_random_colors g (some n)).1
       else .error .invalidColorCount) n
    rw [if_pos hn]
    exact ⟨randColorsLoop_length n g, randColorsLoop_inRange n g⟩
  · intro hn
    show (if 1 ≤ n ∧ n ≤ 4 then
        Except.ok (generate_random_colors g (some n)).1
      else Except.error CliErr.invalidColorCount) = .error .invalidColorCount
    rw [if_neg hn]

theorem C3_witness :
    (generate_2point_gradient 3 3 [⟨255, 0, 0⟩, ⟨0, 0, 255⟩]).map
        (fun im => im (1, 0)) =
      .ok ⟨pytrunc (((255 : ℤ) : ℚ) + (((1 : ℕ) : ℚ) + ((0 : ℕ) : ℚ)) /
            (((3 : ℕ) : ℚ) + ((3 : ℕ) : ℚ) - 2) * (((0 : ℤ) : ℚ) - ((255 : ℤ) : ℚ))),
          pytrunc (((0 : ℤ) : ℚ) + (((1 : ℕ) : ℚ) + ((0 : ℕ) : ℚ)) /
            (((3 : ℕ) : ℚ) + ((3 : ℕ) : ℚ) - 2) * (((0 : ℤ) : ℚ) - ((0 : ℤ) : ℚ))),
          pytrunc (((0 : ℤ) : ℚ) + (((1 : ℕ) : ℚ) + ((0 : ℕ) : ℚ)) /
            (((3 : ℕ) : ℚ) + ((3 : ℕ) : ℚ) - 2) * (((255 : ℤ) : ℚ) - ((0 : ℤ) : ℚ)))⟩ :=
  C3_2point_formula 3 3 1 0 ⟨255, 0, 0⟩ ⟨0, 0, 255⟩ (by norm_num) (by norm_num)
    (by decide) (by decide) (by norm_num) (by norm_num)

theorem C4_witness :
    (generate_4point_gradient 2 2 [⟨1, 2, 3⟩, ⟨4, 5, 6⟩, ⟨7, 8, 9⟩, ⟨10, 11, 12⟩]).map
        (fun im => (im (0, 0), im (2 - 1, 0), im (0, 2 - 1), im (2 - 1, 2 - 1))) =
      .ok (⟨1, 2, 3⟩, ⟨4, 5, 6⟩, ⟨7, 8, 9⟩, ⟨10, 11, 12⟩) :=
  C4_4point_corners 2 2 ⟨1, 2, 3⟩ ⟨4, 5, 6⟩ ⟨7, 8, 9⟩ ⟨10, 11, 12⟩
    (by norm_num) (by norm_num) (by decide) (by decide) (by decide) (by decide)

theorem C5_witness : output_size "preview" 2000 1080 = (1000, 540) :=
  (C5_preview_scaling 2000 1080).2.2 rfl

theorem C6_witness :
    parse_color ['2', '5', '6', ',', '0', ',', '0'] = .error .invalidRGBRange :=
  (C6_rgb_segment ['2', '5', '6'] ['0'] ['0'] (by decide) (by decide) (by decide)
    (by decide) (by decide) (by decide)).trans (by rfl)

theorem C7_witness :
    parse_color ['a', 'b', 'c'] = parse_color ['a', 'a', 'b', 'b', 'c', 'c'] :=
  (C7_hex3_doubling 'a' 'b' 'c' (by decide) (by decide) (by decide)).1

theorem C8_witness :
    cliOkCount (cli_random_colors ⟨fun i => 1000 + i, 0⟩ (some 3)) 3 ∧
    cli_random_colors ⟨fun i => 1000 + i, 0⟩ (some 5) =
      .error .invalidColorCount :=
  ⟨(C8_random_count ⟨fun i => 1000 + i, 0⟩ 3).1 (by decide),
   (C8_random_count ⟨fun i => 1000 + i, 0⟩ 5).2 (by decide)⟩

theorem C9_witness :
    pixelOkInRange ((generate_2point_gradient 2 2 [⟨0, 0, 0⟩, ⟨255, 255, 255⟩]).map
      (fun im => im (0, 1))) :=
  (C9_channels_in_range 2 2 0 1 [⟨0, 0, 0⟩, ⟨255, 255, 255⟩] (by norm_num)
    (by norm_num) (by decide) (by norm_num) (by norm_num)).1 rfl

theorem C10_witness :
    (generate_3point_gradient 2 2 [⟨1, 2, 3⟩, ⟨4, 5, 6⟩, ⟨7, 8, 9⟩]).map
        (fun im => im (2 - 1, 2 - 1)) = .ok ⟨4, 5, 6⟩ :=
  C10_3point_bottom_right 2 2 ⟨1, 2, 3⟩ ⟨4, 5, 6⟩ ⟨7, 8, 9⟩
    (by norm_num) (by norm_num) (by decide) (by decide) (by decide)

end Huedesk
